import Mathlib

/-!
Shallow embedding of the twitter-to-bluesky mirroring scripts
(src/twitter_to_bluesky.py and src/twitter_to_bluesky_img_quote.py).

Conventions used throughout:
- Python strings are Lean String values; slicing, strip, lower and
  the startswith test are modelled over the code-point list s.data,
  matching Python semantics where len and slicing count code points.
- The BeautifulSoup DOM is modelled by the mutually inductive types
  Node and Forest (an element with a tag and children, or a text node).
  Methods that walk the soup (find, find_all, get_text, find_parent)
  are embedded as structural traversals of this tree.  Because the
  tree carries no parent pointers, p.find_parent("blockquote") is
  embedded by threading a "currently below a blockquote" flag through
  the preorder traversal that embeds soup.find_all("p").
- Network effects are modelled by explicit response values
  (FetchResp, LoadResp) and oracles (download and publish outcomes),
  so every function of the embedding is executable.
-/

/-! Python string primitives over code-point lists. -/

/-- Whitespace set of the Python str.strip and str.rstrip defaults
(ASCII subset: space, tab, newline, carriage return, vertical tab, form feed). -/
def pySpace (c : Char) : Bool :=
  c = ' ' || c = '\t' || c = '\n' || c = '\r' || c = '\x0b' || c = '\x0c'

/-- Model of the Python str.strip method (both ends). -/
def pyStrip (s : String) : String :=
  ⟨((s.data.dropWhile pySpace).reverse.dropWhile pySpace).reverse⟩

/-- Model of the Python str.rstrip method (right end only). -/
def pyRstrip (s : String) : String :=
  ⟨(s.data.reverse.dropWhile pySpace).reverse⟩

/-- Model of the Python str.lower method (ASCII case folding). -/
def pyLower (s : String) : String :=
  ⟨s.data.map Char.toLower⟩

/-- Model of the Python s.startswith(pre) test. -/
def pyStartsWith (s pre : String) : Bool :=
  List.isPrefixOf pre.data s.data

/-- Model of the Python slice s[:n] (by code points, like Python). -/
def pySlice (s : String) (n : Nat) : String :=
  ⟨s.data.take n⟩

/-- Model of the Python len(s) (number of code points). -/
def pyLen (s : String) : Nat :=
  s.data.length

/-- Truthiness of a Python string (empty is falsy). -/
def pyTruthyStr (s : String) : Bool :=
  s ≠ ""

/-- Truthiness of an optional Python string (None and the empty string are falsy). -/
def pyTruthyOptStr : Option String → Bool
  | none => false
  | some s => pyTruthyStr s

/-! DOM model for BeautifulSoup(html, "html.parser"). -/

mutual
/-- DOM node: a text node or an element with a tag and child forest. -/
inductive Node where
  | text : String → Node
  | elem : String → Forest → Node
/-- Ordered list of sibling DOM nodes (the contents of a tag or of the soup). -/
inductive Forest where
  | nil : Forest
  | cons : Node → Forest → Forest
end

mutual
/-- Number of elements with the given tag in the subtree of one node. -/
def countTagN (tag : String) : Node → Nat
  | .text _ => 0
  | .elem t cs => (if t == tag then 1 else 0) + countTagF tag cs
/-- Number of elements with the given tag in a forest. -/
def countTagF (tag : String) : Forest → Nat
  | .nil => 0
  | .cons n rest => countTagN tag n + countTagF tag rest
end

mutual
/-- Model of soup.find(tag) on one node: first matching element in preorder,
returning its child forest (the element itself is checked before its
descendants, matching document order). -/
def findTagN (tag : String) : Node → Option Forest
  | .text _ => none
  | .elem t cs => if t == tag then some cs else findTagF tag cs
/-- Model of soup.find(tag) on a forest. -/
def findTagF (tag : String) : Forest → Option Forest
  | .nil => none
  | .cons n rest =>
    match findTagN tag n with
    | some r => some r
    | none => findTagF tag rest
end

mutual
/-- Model of soup.find_all(tag) on one node: every matching element in
preorder, each represented by its child forest. -/
def findAllTagN (tag : String) : Node → List Forest
  | .text _ => []
  | .elem t cs => (if t == tag then [cs] else []) ++ findAllTagF tag cs
/-- Model of soup.find_all(tag) on a forest. -/
def findAllTagF (tag : String) : Forest → List Forest
  | .nil => []
  | .cons n rest => findAllTagN tag n ++ findAllTagF tag rest
end

mutual
/-- All strings of the descendant text nodes of one node, in document order
(the NavigableString stream that get_text consumes). -/
def textsN : Node → List String
  | .text s => [s]
  | .elem _ cs => textsF cs
/-- All strings of the descendant text nodes of a forest. -/
def textsF : Forest → List String
  | .nil => []
  | .cons n rest => textsN n ++ textsF rest
end

/-- Model of tag.get_text(sep, strip=True): each descendant string is
stripped, empty results are skipped, and the rest are joined with sep.
The argument is the child forest of the tag. -/
def getTextF (sep : String) (cs : Forest) : String :=
  String.intercalate sep (((textsF cs).map pyStrip).filter (fun s => s ≠ ""))

mutual
/-- Combined embedding, on one node, of the source loop
"for p in soup.find_all(\x22p\x22): if p.find_parent(\x22blockquote\x22) is None",
collecting for every p element (in preorder) its child forest together with
the flag "this p has a blockquote ancestor". -/
def pFlaggedN (inQ : Bool) : Node → List (Forest × Bool)
  | .text _ => []
  | .elem t cs =>
    (if t == "p" then [(cs, inQ)] else []) ++ pFlaggedF (inQ || t == "blockquote") cs
/-- Combined find_all("p") and find_parent("blockquote") walk over a forest. -/
def pFlaggedF (inQ : Bool) : Forest → List (Forest × Bool)
  | .nil => []
  | .cons n rest => pFlaggedN inQ n ++ pFlaggedF inQ rest
end

/-- Character class of the regex fragment [A-Za-z0-9_]. -/
def wordChar (c : Char) : Bool :=
  c.isAlpha || c.isDigit || c = '_'

/-- Model of re.search applied to the pattern matching an at-sign followed
by one or more word characters, returning the captured group (the word
characters after the first at-sign that has at least one of them). -/
def findHandle : List Char → Option String
  | [] => none
  | c :: rest =>
    if c = '@' then
      if (rest.takeWhile wordChar).isEmpty then findHandle rest
      else some ⟨rest.takeWhile wordChar⟩
    else findHandle rest

/-! Feed entry parser (src/twitter_to_bluesky_img_quote.py, parse_entry_text_and_quote). -/

/-- Result record of parse_entry_text_and_quote. -/
structure ParsedEntry where
  main_text : String
  quote_author : Option String
  quote_text : Option String
deriving DecidableEq, Repr

/-- Paragraph texts feeding main_text: for every p element of the soup that
has no blockquote ancestor, its get_text(" ", strip=True) value, keeping
only the non-empty ones, in document order. -/
def mainParas (soup : Forest) : List String :=
  (pFlaggedF false soup).filterMap (fun cu =>
    if cu.2 then none
    else if getTextF " " cu.1 = "" then none
    else some (getTextF " " cu.1))

/-- Embedding of parse_entry_text_and_quote.  The body html is given as
none when the entry has no summary and no description html (the falsy
case), otherwise as the parsed DOM forest.  A found-but-empty tag is
falsy in Python (bs4 Tag defines len as the number of contents), which
the emptiness tests on the child forests reproduce. -/
def parse_entry_text_and_quote (title : String) (body : Option Forest) : ParsedEntry :=
  match body with
  | none => ⟨title, none, none⟩
  | some soup =>
    let mt := pyStrip (String.intercalate "\n" (mainParas soup))
    let main_text := if mt = "" then title else mt
    match findTagF "blockquote" soup with
    | none => ⟨main_text, none, none⟩
    | some qcs =>
      match qcs with
      | .nil => ⟨main_text, none, none⟩
      | .cons _ _ =>
        let quote_author : Option String :=
          match findTagF "b" qcs with
          | none => none
          | some bcs =>
            match bcs with
            | .nil => none
            | .cons _ _ =>
              let btext := getTextF " " bcs
              match findHandle btext.data with
              | some h => some h
              | none => some btext
        let quote_paras := (findAllTagF "p" qcs).map (fun pc => getTextF " " pc)
        let qt := pyStrip (String.intercalate " " quote_paras)
        let quote_text := if qt = "" then none else some qt
        ⟨main_text, quote_author, quote_text⟩

/-! Retweet heuristic and source fetcher. -/

/-- Embedding of looks_like_retweet: the title is stripped, lowercased and
tested against the two repost prefixes. -/
def looks_like_retweet (title : String) : Bool :=
  let t := pyStrip title
  pyStartsWith (pyLower t) "rt @" || pyStartsWith (pyLower t) "rt "

/-- Raw feed entry as produced by feedparser.  The title and id attributes
may be missing (getattr default); body is the BeautifulSoup parse of the
summary or description html, none when that html string is falsy; mediaUrls
is the result of extract_media_urls_from_entry, the img-src values scanned
from the raw html in document order (the raw html string itself is
abstracted away because no claim depends on re-parsing it). -/
structure Entry where
  titleAttr : Option String
  body : Option Forest
  idAttr : Option String
  link : String
  mediaUrls : List String

/-- Tweet record built by get_recent_tweets_rss
(src/twitter_to_bluesky_img_quote.py). -/
structure Tweet where
  id : String
  content : String
  url : String
  username : String
  media_urls : List String
  quote_author : Option String
  quote_text : Option String
deriving DecidableEq, Repr

/-- Value of the Python expression "getattr(entry, \x22id\x22, None) or entry.link":
the id attribute when present and truthy, else the link. -/
def entryId (e : Entry) : String :=
  match e.idAttr with
  | some s => if s = "" then e.link else s
  | none => e.link

/-- Per-entry body of the fetch loop: none when the entry is skipped (repost
title, or no main text), otherwise the tweet record appended to the batch. -/
def entryToItem (username : String) (e : Entry) : Option Tweet :=
  let title := e.titleAttr.getD ""
  if looks_like_retweet title then none
  else
    let parsed := parse_entry_text_and_quote title e.body
    if parsed.main_text = "" then none
    else some
      { id := entryId e
        content := parsed.main_text
        url := e.link
        username := username
        media_urls := e.mediaUrls
        quote_author := parsed.quote_author
        quote_text := parsed.quote_text }

/-- Outcome of the feed download: failure covers a non-2xx status, timeout
or connection error (requests.RequestException caught in the source). -/
inductive FetchResp where
  | failure : FetchResp
  | success : List Entry → FetchResp

/-- Accumulator loop of get_recent_tweets_rss: entries are scanned in feed
order, skipped entries leave the batch unchanged, and the loop breaks as
soon as the batch length reaches the limit (checked after appending). -/
def fetchLoop (username : String) (limit : Nat) : List Entry → List Tweet → List Tweet
  | [], acc => acc
  | e :: es, acc =>
    match entryToItem username e with
    | none => fetchLoop username limit es acc
    | some t =>
      if limit ≤ (acc ++ [t]).length then acc ++ [t]
      else fetchLoop username limit es (acc ++ [t])

/-- Embedding of get_recent_tweets_rss: empty list on transport failure,
otherwise the filtered, limit-bounded scan of the feed entries. -/
def get_recent_tweets_rss (username : String) (limit : Nat) (resp : FetchResp) : List Tweet :=
  match resp with
  | .failure => []
  | .success entries => fetchLoop username limit entries []

/-! Post formatter (src/twitter_to_bluesky_img_quote.py, format_bsky_post). -/

/-- Character budget of one Bluesky post. -/
def MAX_BSKY_CHARS : Nat := 300

/-- Embedding of format_bsky_post of the img_quote variant: compose the
attribution header, main text and (when both quote fields are truthy) the
quoted block; if the composition exceeds the budget, slice to the budget,
strip trailing whitespace and append the ellipsis character. -/
def format_bsky_post (tweet : Tweet) : String :=
  let base_text :=
    if pyTruthyOptStr tweet.quote_author && pyTruthyOptStr tweet.quote_text then
      "@" ++ tweet.username ++ ":\n    \n" ++ tweet.content ++
        "\n\n——\nQuoted @" ++ (tweet.quote_author.getD "") ++ ":\n" ++
        (tweet.quote_text.getD "")
    else
      "@" ++ tweet.username ++ ":\n    \n" ++ tweet.content
  if pyLen base_text ≤ MAX_BSKY_CHARS then base_text
  else pyRstrip (pySlice base_text MAX_BSKY_CHARS) ++ "…"

/-! Publisher (src/twitter_to_bluesky_img_quote.py, post_to_bluesky). -/

/-- Observable actions of one post_to_bluesky call: an image download
attempt (with its outcome) or one of the two atproto publish calls. -/
inductive BskyAct where
  | download : String → Bool → BskyAct
  | sendPost : String → BskyAct
  | sendImages : String → List String → List String → BskyAct
deriving DecidableEq, Repr

/-- Embedding of post_to_bluesky, with the image download modelled by the
oracle dl (some payload on success, none when the request raises).  The
result is the trace of actions: every download attempt of the first four
media urls, then exactly one publish call. -/
def post_to_bluesky (dl : String → Option String) (tweet : Tweet) (text : String) :
    List BskyAct :=
  if tweet.media_urls.isEmpty then [.sendPost text]
  else
    let tries := tweet.media_urls.take 4
    let images := tries.filterMap dl
    let image_alts := images.map (fun _ => "Image from tweet by @" ++ tweet.username)
    let dlog := tries.map (fun u => BskyAct.download u (dl u).isSome)
    if images.isEmpty then dlog ++ [.sendPost text]
    else dlog ++ [.sendImages text images image_alts]

/-! Run orchestrator (main of both scripts). -/

/-- Per-item events of one run, recorded for the statements: a dedup skip,
a successful publish, or a publish attempt that raised and was caught. -/
inductive Event where
  | skipped : String → Event
  | published : String → String → Event
  | publishFailed : String → String → Event
deriving DecidableEq, Repr

/-- In-memory state of one run: the seen-ids ledger (a Python set, modelled
as a duplicate-free-by-construction list), the number of publish attempts
made so far (indexing the publish outcome oracle), and the event log. -/
structure RunState where
  seen : List String
  attempts : Nat
  log : List Event
deriving DecidableEq, Repr

/-- Model of seen_ids.add(id): appending only when absent, as a Python set. -/
def addId (l : List String) (id : String) : List String :=
  if id ∈ l then l else l ++ [id]

/-- One iteration of the per-tweet loop of main: skip when the id is in the
ledger, otherwise format and attempt the publish; only a successful publish
adds the id to the ledger, and a raised publish is caught. -/
def stepTweet (pub : Nat → Bool) (s : RunState) (tweet : Tweet) : RunState :=
  if tweet.id ∈ s.seen then { s with log := s.log ++ [.skipped tweet.id] }
  else
    let text := format_bsky_post tweet
    if pub s.attempts then
      { seen := addId s.seen tweet.id
        attempts := s.attempts + 1
        log := s.log ++ [.published tweet.id text] }
    else
      { s with
        attempts := s.attempts + 1
        log := s.log ++ [.publishFailed tweet.id text] }

/-- The per-account tweet loop of main, over an already-reversed batch. -/
def runTweets (pub : Nat → Bool) (s : RunState) (ts : List Tweet) : RunState :=
  ts.foldl (stepTweet pub) s

/-- Number of tweets fetched per account and run. -/
def TWEETS_PER_USER : Nat := 10

/-- One account iteration of main: fetch the feed (through the fetch
oracle), then process the batch oldest-first (reversed). -/
def runAccount (pub : Nat → Bool) (fetchO : String → FetchResp) (s : RunState)
    (username : String) : RunState :=
  runTweets pub s (get_recent_tweets_rss username TWEETS_PER_USER (fetchO username)).reverse

/-- The account loop of main, started from the loaded ledger. -/
def runMain (pub : Nat → Bool) (fetchO : String → FetchResp) (accounts : List String)
    (init : List String) : RunState :=
  accounts.foldl (runAccount pub fetchO) ⟨init, 0, []⟩

/-- Predicate picking the successful-publish events of one id. -/
def isPublishedFor (id : String) : Event → Bool
  | .published i _ => i == id
  | _ => false

/-- Predicate picking every publish attempt (successful or failed) of one id. -/
def isAttemptFor (id : String) : Event → Bool
  | .published i _ => i == id
  | .publishFailed i _ => i == id
  | _ => false

/-- Number of successful publishes of one id in an event log. -/
def countPublished (id : String) (log : List Event) : Nat :=
  (log.filter (isPublishedFor id)).length

/-! Ledger store (load_state of both scripts, backed by a GitHub gist). -/

/-- JSON value, the result of a Python json.loads or response.json() call. -/
inductive Json where
  | null : Json
  | bool : Bool → Json
  | num : Int → Json
  | str : String → Json
  | arr : List Json → Json
  | obj : List (String × Json) → Json

/-- Exceptions that can escape load_state (everything after the catch of the
gist request runs outside any try block until the final parse try). -/
inductive PyExn where
  | jsonDecodeError : PyExn
  | attributeError : PyExn
  | typeError : PyExn
deriving DecidableEq, Repr

/-- Name of the ledger file inside the gist. -/
def STATE_FILENAME : String := "posted_tweets.json"

/-- Truthiness of a Python value decoded from JSON. -/
def jsonTruthy : Json → Bool
  | .null => false
  | .bool b => b
  | .num n => n ≠ 0
  | .str s => s ≠ ""
  | .arr xs => !xs.isEmpty
  | .obj fs => !fs.isEmpty

/-- Substring test of the Python "needle in haystack" on strings. -/
def strContains (hay needle : String) : Bool :=
  (List.range (hay.data.length + 1)).any (fun i => List.isPrefixOf needle.data (hay.data.drop i))

/-- Model of the Python containment test "key in value" for a decoded JSON
value: key lookup for a dict, element equality for a list (a string equals
no list or dict, so only string elements can match), substring test for a
string; an int, bool or None operand raises TypeError. -/
def pyContainsKey (key : String) : Json → Except PyExn Bool
  | .obj fs => .ok (fs.any (fun kv => kv.1 == key))
  | .arr xs => .ok (xs.any (fun x => match x with | .str s => s == key | _ => false))
  | .str s => .ok (strContains s key)
  | _ => .error .typeError

/-- Model of the Python indexing file_obj[key], reached only inside the
final try block: none stands for any raised exception (KeyError on a dict
without the key, TypeError on string indexes of other values), which the
enclosing except swallows. -/
def jsonIndex (j : Json) (key : String) : Option Json :=
  match j with
  | .obj fs => fs.lookup key
  | _ => none

/-- Hashability of a decoded JSON value (set() raises TypeError on list or
dict elements). -/
def jsonHashable : Json → Bool
  | .arr _ => false
  | .obj _ => false
  | _ => true

/-- Equality of hashable (scalar) JSON values, as Python == sees them;
container cases are unreachable behind the hashability check. -/
def scalarBeq : Json → Json → Bool
  | .null, .null => true
  | .bool a, .bool b => a == b
  | .num a, .num b => a == b
  | .str a, .str b => a == b
  | _, _ => false

/-- First-occurrence deduplication, modelling set construction. -/
def dedupScalar : List Json → List Json
  | [] => []
  | x :: xs => x :: dedupScalar (xs.filter (fun y => !scalarBeq x y))
termination_by l => l.length
decreasing_by
  simp only [List.length_cons]
  exact Nat.lt_succ_of_le (List.length_filter_le _ _)

/-- Model of the Python set(value) constructor: element set of a list (all
elements must be hashable), character set of a string, key set of a dict;
other values are not iterable and raise TypeError (none, caught by the
enclosing except). -/
def pySetOf : Json → Option (List Json)
  | .arr xs => if xs.all jsonHashable then some (dedupScalar xs) else none
  | .str s => some (dedupScalar (s.data.map (fun c => Json.str ⟨[c]⟩)))
  | .obj fs => some (dedupScalar (fs.map (fun kv => Json.str kv.1)))
  | _ => none

/-- Body of the final try block of load_state: index the content, parse it
as JSON (through the parse oracle standing for json.loads), read the
tweet_ids member and build the set; any failure collapses to the empty set
through the enclosing except. -/
def tryLoadIds (parse : String → Option Json) (fileObj : Json) : List Json :=
  match jsonIndex fileObj "content" with
  | none => []
  | some contentVal =>
    match contentVal with
    | .str content =>
      match parse content with
      | none => []
      | some stateJson =>
        match stateJson with
        | .obj fs =>
          match pySetOf ((fs.lookup "tweet_ids").getD (.arr [])) with
          | some ids => ids
          | none => []
        | _ => []
    | _ => []

/-- Response of the gist fetch as load_state sees it: configuration missing,
transport failure (requests.RequestException, caught), or a 2xx response
whose body either fails to parse as JSON (response.json() raises, outside
any try) or yields a decoded value. -/
inductive LoadResp where
  | noConfig : LoadResp
  | transportError : LoadResp
  | ok : Except Unit Json → LoadResp

/-- Embedding of load_state.  The parse oracle stands for json.loads on the
ledger file content.  The result is the in-memory ledger set, or the
exception that escapes to the caller. -/
def load_state (parse : String → Option Json) (r : LoadResp) : Except PyExn (List Json) :=
  match r with
  | .noConfig => .ok []
  | .transportError => .ok []
  | .ok (.error _) => .error .jsonDecodeError
  | .ok (.ok data) =>
    match data with
    | .obj dataFields =>
      match (dataFields.lookup "files").getD (.obj []) with
      | .obj fileEntries =>
        match fileEntries.lookup STATE_FILENAME with
        | none => .ok []
        | some fileObj =>
          if !jsonTruthy fileObj then .ok []
          else
            match pyContainsKey "content" fileObj with
            | .error e => .error e
            | .ok false => .ok []
            | .ok true => .ok (tryLoadIds parse fileObj)
      | _ => .error .attributeError
    | _ => .error .attributeError

/-- Boolean success test on the load_state result. -/
def loadOk (r : Except PyExn (List Json)) : Bool :=
  match r with
  | .ok _ => true
  | .error _ => false

/-- Well-shapedness of a gist response, under which load_state is exception
free: the 2xx body (when the request succeeded and configuration exists)
must decode to a JSON object, its files member (or the defaulted empty
dict) must be an object, and the named file entry must be absent, falsy, or
a dict, list or string (the shapes on which the containment test cannot
raise). -/
def wellShapedResp : LoadResp → Bool
  | .noConfig => true
  | .transportError => true
  | .ok (.error _) => false
  | .ok (.ok data) =>
    match data with
    | .obj dataFields =>
      match (dataFields.lookup "files").getD (.obj []) with
      | .obj fileEntries =>
        match fileEntries.lookup STATE_FILENAME with
        | none => true
        | some fileObj =>
          !jsonTruthy fileObj ||
            (match fileObj with
             | .obj _ => true
             | .arr _ => true
             | .str _ => true
             | _ => false)
      | _ => false
    | _ => false

/-! Spec-side definitions and concrete inputs used by the statements. -/

/-- List-to-forest conversion, a convenience for writing concrete DOM values. -/
def fOf : List Node → Forest
  | [] => .nil
  | n :: ns => .cons n (fOf ns)

/-- Definition following the claim words, for comparison with the code:
the title itself (no stripping), compared case-insensitively, starts with
the prefixes "rt @" or "rt ". -/
def specRepostTitle (title : String) : Bool :=
  pyStartsWith (pyLower title) "rt @" || pyStartsWith (pyLower title) "rt "

/-- Child forests of the p elements that do have a blockquote ancestor, in
document order (the paragraphs inside a quote container). -/
def insideParas (soup : Forest) : List Forest :=
  (pFlaggedF false soup).filterMap (fun cu => if cu.2 then some cu.1 else none)

/-- Concrete body with a paragraph outside the quote container and a quote
container holding a bold author but no paragraph at all. -/
def c5soup : Forest :=
  fOf [Node.elem "p" (fOf [Node.text "hi"]),
       Node.elem "blockquote" (fOf [Node.elem "b" (fOf [Node.text "Bob (@bob)"])])]

/-- Concrete body whose quote container yields empty quoted text. -/
def c5wsoup : Forest :=
  fOf [Node.elem "p" (fOf [Node.text "main line"]),
       Node.elem "blockquote" (fOf [Node.elem "b" (fOf [Node.text "A (@a)"])])]

/-- Concrete body with paragraphs inside and outside one quote container. -/
def c6soup : Forest :=
  fOf [Node.elem "p" (fOf [Node.text "Hello"]),
       Node.elem "blockquote"
         (fOf [Node.elem "b" (fOf [Node.text "X (@x)"]),
               Node.elem "p" (fOf [Node.text "Q one"])]),
       Node.elem "p" (fOf [Node.text "World"])]

/-- Child forest of the quote container of c6soup. -/
def c6qcs : Forest :=
  fOf [Node.elem "b" (fOf [Node.text "X (@x)"]),
       Node.elem "p" (fOf [Node.text "Q one"])]

/-- Concrete entry whose title is present but empty and whose body is
absent: not repost-titled, yet dropped by the fetcher for empty text. -/
def c7entry : Entry :=
  { titleAttr := some ""
    body := none
    idAttr := some "e1"
    link := "http://t/1"
    mediaUrls := [] }

/-- Concrete ordinary entry accepted by the fetcher. -/
def c8entry : Entry :=
  { titleAttr := some "Hello world"
    body := none
    idAttr := some "id8"
    link := "http://t/8"
    mediaUrls := [] }

/-- Concrete download oracle: the first image url succeeds, others fail. -/
def c9dl : String → Option String :=
  fun u => if u = "http://img/1" then some "payload1" else none

/-- Concrete tweet with two media urls. -/
def c9tweet : Tweet :=
  { id := "id9"
    content := "Hi"
    url := "http://t/9"
    username := "manu"
    media_urls := ["http://img/1", "http://img/2"]
    quote_author := none
    quote_text := none }

/-- Concrete tweet whose composed text has four hundred characters of body. -/
def c4tweet : Tweet :=
  { id := "id4"
    content := ⟨List.replicate 400 'a'⟩
    url := "http://t/4"
    username := "u"
    media_urls := []
    quote_author := none
    quote_text := none }

/-- Concrete publish oracle on which every attempt fails. -/
def pubFail : Nat → Bool := fun _ => false

/-- Concrete fetch oracle on which every account fetch fails. -/
def fetchFail : String → FetchResp := fun _ => FetchResp.failure

/-- Concrete run state holding one seen id. -/
def s1 : RunState := ⟨["x"], 0, []⟩

/-- Concrete unseen tweet. -/
def t1 : Tweet :=
  { id := "y"
    content := "c"
    url := "http://t/y"
    username := "n"
    media_urls := []
    quote_author := none
    quote_text := none }

/-- Concrete publish oracle on which every attempt succeeds. -/
def pubOk : Nat → Bool := fun _ => true

/-- Concrete fetch oracle returning one ordinary entry for every account. -/
def fetch8 : String → FetchResp := fun _ => FetchResp.success [c8entry]

/-- Concrete parse oracle that always fails (json.loads never succeeds). -/
def parse0 : String → Option Json := fun _ => none

/-- Concrete well-shaped gist response: an empty JSON object body. -/
def r3 : LoadResp := LoadResp.ok (Except.ok (Json.obj []))

/-- Ledger correspondence invariant of one run: an id is in the seen set
exactly when it was loaded at run start or a successful publish for it is
in the log. -/
def SeenInv (init : List String) (s : RunState) : Prop :=
  ∀ id, id ∈ s.seen ↔ id ∈ init ∨ s.log.any (isPublishedFor id) = true

/-- Dedup invariant for an id loaded into the ledger: it stays in the seen
set with exactly one occurrence and no publish attempt is ever made for it. -/
def OnceInv (id : String) (s : RunState) : Prop :=
  id ∈ s.seen ∧ s.seen.count id = 1 ∧ s.log.any (isAttemptFor id) = false

/-- At-most-once invariant: an id outside the seen set has no successful
publish in the log, and one inside has at most one. -/
def PubOnceInv (id : String) (s : RunState) : Prop :=
  (id ∈ s.seen → countPublished id s.log ≤ 1) ∧
    (id ∉ s.seen → countPublished id s.log = 0)

/-! Helper lemmas about the orchestrator loop. -/

theorem stepTweet_seen_mono (pub : Nat → Bool) (s : RunState) (t : Tweet) (id : String)
    (h : id ∈ s.seen) : id ∈ (stepTweet pub s t).seen := by
  by_cases hm : t.id ∈ s.seen
  · simp [stepTweet, hm, h]
  · by_cases hp : pub s.attempts
    · simp [stepTweet, hm, hp, addId, h]
    · simp [stepTweet, hm, hp, h]

theorem stepTweet_SeenInv (pub : Nat → Bool) (init : List String) (s : RunState)
    (t : Tweet) (h : SeenInv init s) : SeenInv init (stepTweet pub s t) := by
  intro id
  have hstep := h id
  by_cases hm : t.id ∈ s.seen
  · simp only [stepTweet, if_pos hm]
    simpa [List.any_append, isPublishedFor] using hstep
  · by_cases hp : pub s.attempts
    · simp only [stepTweet, if_neg hm, if_pos hp]
      show id ∈ addId s.seen t.id ↔ id ∈ init ∨
        ((s.log ++ [Event.published t.id (format_bsky_post t)]).any (isPublishedFor id) = true)
      have h1 : id ∈ addId s.seen t.id ↔ id ∈ s.seen ∨ id = t.id := by
        simp [addId, hm]
      have h2 : ((s.log ++ [Event.published t.id (format_bsky_post t)]).any
          (isPublishedFor id) = true) ↔
          (s.log.any (isPublishedFor id) = true ∨ t.id = id) := by
        simp [List.any_append, isPublishedFor]
      rw [h1, h2, hstep]
      constructor
      · rintro (hseen | heq)
        · rcases hseen with hi | ha
          · exact Or.inl hi
          · exact Or.inr (Or.inl ha)
        · exact Or.inr (Or.inr heq.symm)
      · rintro (hi | ha | heq)
        · exact Or.inl (Or.inl hi)
        · exact Or.inl (Or.inr ha)
        · exact Or.inr heq.symm
    · simp only [stepTweet, if_neg hm, if_neg hp]
      show id ∈ s.seen ↔ id ∈ init ∨
        ((s.log ++ [Event.publishFailed t.id (format_bsky_post t)]).any (isPublishedFor id) = true)
      simpa [List.any_append, isPublishedFor] using hstep

theorem runTweets_SeenInv (pub : Nat → Bool) (init : List String) (ts : List Tweet) :
    ∀ s : RunState, SeenInv init s → SeenInv init (runTweets pub s ts) := by
  induction ts with
  | nil => intro s h; exact h
  | cons t ts ih => intro s h; exact ih _ (stepTweet_SeenInv pub init s t h)

theorem foldlAccounts_SeenInv (pub : Nat → Bool) (fetchO : String → FetchResp)
    (init : List String) (accounts : List String) :
    ∀ s : RunState, SeenInv init s →
      SeenInv init (accounts.foldl (runAccount pub fetchO) s) := by
  induction accounts with
  | nil => intro s h; exact h
  | cons a as ih => intro s h; exact ih _ (runTweets_SeenInv pub init _ s h)

theorem runMain_SeenInv (pub : Nat → Bool) (fetchO : String → FetchResp)
    (accounts : List String) (init : List String) :
    SeenInv init (runMain pub fetchO accounts init) := by
  apply foldlAccounts_SeenInv
  intro id
  simp [SeenInv]

theorem stepTweet_OnceInv (pub : Nat → Bool) (id : String) (s : RunState) (t : Tweet)
    (h : OnceInv id s) : OnceInv id (stepTweet pub s t) := by
  obtain ⟨hin, hcount, hatt⟩ := h
  by_cases hm : t.id ∈ s.seen
  · refine ⟨?_, ?_, ?_⟩ <;> simp [stepTweet, hm, hin, hcount, List.any_append, isAttemptFor, hatt]
  · have hne : t.id ≠ id := fun he => hm (he ▸ hin)
    by_cases hp : pub s.attempts
    · refine ⟨?_, ?_, ?_⟩
      · simp [stepTweet, hm, hp, addId, hin]
      · simp only [stepTweet, if_neg hm, if_pos hp]
        show (addId s.seen t.id).count id = 1
        simp [addId, hm, List.count_append, hcount, List.count_singleton, hne]
      · simp only [stepTweet, if_neg hm, if_pos hp]
        show ((s.log ++ [Event.published t.id (format_bsky_post t)]).any (isAttemptFor id)) = false
        simp [List.any_append, isAttemptFor, hatt, hne]
    · refine ⟨?_, ?_, ?_⟩
      · simp [stepTweet, hm, hp, hin]
      · simp [stepTweet, hm, hp, hcount]
      · simp only [stepTweet, if_neg hm, if_neg hp]
        show ((s.log ++ [Event.publishFailed t.id (format_bsky_post t)]).any (isAttemptFor id)) = false
        simp [List.any_append, isAttemptFor, hatt, hne]

theorem runTweets_OnceInv (pub : Nat → Bool) (id : String) (ts : List Tweet) :
    ∀ s : RunState, OnceInv id s → OnceInv id (runTweets pub s ts) := by
  induction ts with
  | nil => intro s h; exact h
  | cons t ts ih => intro s h; exact ih _ (stepTweet_OnceInv pub id s t h)

theorem foldlAccounts_OnceInv (pub : Nat → Bool) (fetchO : String → FetchResp)
    (id : String) (accounts : List String) :
    ∀ s : RunState, OnceInv id s →
      OnceInv id (accounts.foldl (runAccount pub fetchO) s) := by
  induction accounts with
  | nil => intro s h; exact h
  | cons a as ih => intro s h; exact ih _ (runTweets_OnceInv pub id _ s h)

theorem stepTweet_PubOnceInv (pub : Nat → Bool) (id : String) (s : RunState) (t : Tweet)
    (h : PubOnceInv id s) : PubOnceInv id (stepTweet pub s t) := by
  obtain ⟨hle, hzero⟩ := h
  by_cases hm : t.id ∈ s.seen
  · constructor <;> intro hmem <;>
      simp only [stepTweet, if_pos hm] at hmem ⊢ <;>
      simp only [countPublished, List.filter_append, List.length_append] <;>
      simp [isPublishedFor, countPublished] at hle hzero ⊢
    · exact hle hmem
    · exact hzero hmem
  · by_cases hp : pub s.attempts
    · by_cases hid : t.id = id
      · subst hid
        have h0 : countPublished t.id s.log = 0 := hzero hm
        constructor
        · intro _
          simp only [stepTweet, if_neg hm, if_pos hp]
          show countPublished t.id
            (s.log ++ [Event.published t.id (format_bsky_post t)]) ≤ 1
          unfold countPublished at h0 ⊢
          rw [List.filter_append, List.length_append]
          have hsing : (List.filter (isPublishedFor t.id)
              [Event.published t.id (format_bsky_post t)]).length = 1 := by
            simp [isPublishedFor]
          rw [hsing]
          omega
        · intro hmem
          exfalso
          apply hmem
          simp only [stepTweet, if_neg hm, if_pos hp]
          show t.id ∈ (addId s.seen t.id)
          simp [addId, hm]
      · constructor
        · intro hmem
          simp only [stepTweet, if_neg hm, if_pos hp] at hmem ⊢
          replace hmem : id ∈ addId s.seen t.id := hmem
          have hmem2 : id ∈ s.seen := by
            rcases (by simpa [addId, hm] using hmem : id ∈ s.seen ∨ id = t.id) with h1 | h1
            · exact h1
            · exact absurd h1.symm hid
          show countPublished id
            (s.log ++ [Event.published t.id (format_bsky_post t)]) ≤ 1
          simpa [countPublished, List.filter_append, isPublishedFor, hid] using hle hmem2
        · intro hmem
          simp only [stepTweet, if_neg hm, if_pos hp] at hmem ⊢
          replace hmem : id ∉ addId s.seen t.id := hmem
          have hmem2 : id ∉ s.seen := fun hx => hmem (by simp [addId, hm, hx])
          show countPublished id
            (s.log ++ [Event.published t.id (format_bsky_post t)]) = 0
          simpa [countPublished, List.filter_append, isPublishedFor, hid] using hzero hmem2
    · constructor <;> intro hmem <;>
        simp only [stepTweet, if_neg hm, if_neg hp] at hmem ⊢
      · show countPublished id
          (s.log ++ [Event.publishFailed t.id (format_bsky_post t)]) ≤ 1
        simpa [countPublished, List.filter_append, isPublishedFor] using hle hmem
      · show countPublished id
          (s.log ++ [Event.publishFailed t.id (format_bsky_post t)]) = 0
        simpa [countPublished, List.filter_append, isPublishedFor] using hzero hmem

theorem runTweets_PubOnceInv (pub : Nat → Bool) (id : String) (ts : List Tweet) :
    ∀ s : RunState, PubOnceInv id s → PubOnceInv id (runTweets pub s ts) := by
  induction ts with
  | nil => intro s h; exact h
  | cons t ts ih => intro s h; exact ih _ (stepTweet_PubOnceInv pub id s t h)

theorem foldlAccounts_PubOnceInv (pub : Nat → Bool) (fetchO : String → FetchResp)
    (id : String) (accounts : List String) :
    ∀ s : RunState, PubOnceInv id s →
      PubOnceInv id (accounts.foldl (runAccount pub fetchO) s) := by
  induction accounts with
  | nil => intro s h; exact h
  | cons a as ih => intro s h; exact ih _ (runTweets_PubOnceInv pub id _ s h)

theorem any_published_iff (id : String) (log : List Event) :
    log.any (isPublishedFor id) = true ↔ countPublished id log ≠ 0 := by
  constructor
  · intro h hc
    rw [List.any_eq_true] at h
    obtain ⟨x, hx, hpx⟩ := h
    have hmem : x ∈ log.filter (isPublishedFor id) := List.mem_filter.mpr ⟨hx, hpx⟩
    rw [countPublished, List.length_eq_zero] at hc
    rw [hc] at hmem
    exact absurd hmem (List.not_mem_nil x)
  · intro h
    rw [countPublished] at h
    rcases hne : log.filter (isPublishedFor id) with _ | ⟨x, xs⟩
    · rw [hne] at h; simp at h
    · have hx : x ∈ log.filter (isPublishedFor id) := by rw [hne]; exact List.mem_cons_self x xs
      rw [List.any_eq_true]
      exact ⟨x, (List.mem_filter.mp hx).1, (List.mem_filter.mp hx).2⟩

/-! Claim theorems. -/

/-- Claim C1: within a run, an id is in the seen-ids ledger after the run
exactly when it was loaded at start or its publish attempt succeeded; the
ledger only grows at every step; a caught publish failure leaves the ledger
unchanged and the loop goes on with the remaining tweets. -/
theorem C1_ledger_iff_publish_success (pub : Nat → Bool) (fetchO : String → FetchResp)
    (accounts : List String) (init : List String) (s : RunState) (t : Tweet)
    (rest : List Tweet) (hfail : pub s.attempts = false) (hnew : t.id ∉ s.seen) :
    (∀ id, id ∈ (runMain pub fetchO accounts init).seen ↔
        id ∈ init ∨ (runMain pub fetchO accounts init).log.any (isPublishedFor id) = true) ∧
    (∀ id, id ∈ init → id ∈ (runMain pub fetchO accounts init).seen) ∧
    (∀ (s2 : RunState) (t2 : Tweet) (id : String),
        id ∈ s2.seen → id ∈ (stepTweet pub s2 t2).seen) ∧
    (stepTweet pub s t).seen = s.seen ∧
    runTweets pub s (t :: rest) = runTweets pub (stepTweet pub s t) rest := by
  refine ⟨runMain_SeenInv pub fetchO accounts init, ?_, ?_, ?_, rfl⟩
  · intro id hid
    exact (runMain_SeenInv pub fetchO accounts init id).mpr (Or.inl hid)
  · intro s2 t2 id h
    exact stepTweet_seen_mono pub s2 t2 id h
  · simp [stepTweet, hnew, hfail]

/-- Witness for C1 at a concrete failing run: the loaded id stays in the
ledger. -/
theorem C1_witness : "x" ∈ (runMain pubFail fetchFail ["acct"] ["x"]).seen :=
  (C1_ledger_iff_publish_success pubFail fetchFail ["acct"] ["x"] s1 t1 []
    (by decide) (by decide)).2.1 "x" (by decide)

/-- Claim C2: an item whose id is already in the ledger is skipped with no
state change beyond the logged skip, no publish attempt for it ever occurs,
and the ledger still holds exactly one occurrence of the id after the run. -/
theorem C2_dedup_skip (pub : Nat → Bool) (fetchO : String → FetchResp)
    (accounts : List String) (init : List String) (id : String)
    (hin : id ∈ init) (hcount : init.count id = 1) :
    (∀ (s : RunState) (t : Tweet), t.id ∈ s.seen →
        stepTweet pub s t = { s with log := s.log ++ [Event.skipped t.id] }) ∧
    (runMain pub fetchO accounts init).log.any (isAttemptFor id) = false ∧
    (runMain pub fetchO accounts init).seen.count id = 1 := by
  have hinv : OnceInv id (runMain pub fetchO accounts init) := by
    apply foldlAccounts_OnceInv
    exact ⟨hin, hcount, rfl⟩
  refine ⟨?_, hinv.2.2, hinv.2.1⟩
  intro s t hm
  simp [stepTweet, hm]

/-- Witness for C2 at a concrete run starting from a one-id ledger. -/
theorem C2_witness : (runMain pubFail fetchFail ["acct"] ["x"]).seen.count "x" = 1 :=
  (C2_dedup_skip pubFail fetchFail ["acct"] ["x"] "x" (by decide) (by decide)).2.2

/-- Claim C10: every id is successfully published at most once per run, and
a successfully published id is in the seen set afterwards (it entered the
set right after the publish, so every later occurrence is skipped). -/
theorem C10_at_most_one_publish (pub : Nat → Bool) (fetchO : String → FetchResp)
    (accounts : List String) (init : List String) (id : String) :
    countPublished id (runMain pub fetchO accounts init).log ≤ 1 ∧
    ((runMain pub fetchO accounts init).log.any (isPublishedFor id) = true →
      id ∈ (runMain pub fetchO accounts init).seen) := by
  have hinv : PubOnceInv id (runMain pub fetchO accounts init) := by
    apply foldlAccounts_PubOnceInv
    constructor
    · intro _; simp [countPublished]
    · intro _; simp [countPublished]
  constructor
  · by_cases hmem : id ∈ (runMain pub fetchO accounts init).seen
    · exact hinv.1 hmem
    · rw [hinv.2 hmem]; exact Nat.zero_le 1
  · intro hany
    by_contra hmem
    exact (any_published_iff id _).mp hany (hinv.2 hmem)

/-- Witness for C10 at a concrete run on which one publish succeeds. -/
theorem C10_witness : "id8" ∈ (runMain pubOk fetch8 ["acct"] []).seen :=
  (C10_at_most_one_publish pubOk fetch8 ["acct"] [] "id8").2 (by decide)

set_option maxRecDepth 4000 in
/-- Claim C4 (code bug): on a four-hundred-character tweet body the
formatter of the img_quote variant returns three hundred and one
characters, one more than the budget — the slice is taken at the full
budget and the ellipsis appended after it, contradicting the docstring
"Truncates to MAX_BSKY_CHARS" and the claimed bound. -/
theorem C4_budget_exceeded_at_input :
    pyLen (format_bsky_post c4tweet) = MAX_BSKY_CHARS + 1 := by
  decide

/-- Claim C3 counterexample: a 2xx gist response whose body is not valid
JSON makes load_state raise (response.json() runs outside every try block),
so the exception escapes to the caller instead of yielding a set. -/
theorem C3_counterexample :
    load_state parse0 (LoadResp.ok (Except.error ())) = Except.error PyExn.jsonDecodeError :=
  rfl

/-- Claim C3 (amended): load_state returns a set and never raises for every
response whose body shape keeps the unprotected statements safe — missing
configuration, transport failure, or a 2xx body decoding to a JSON object
whose files member (when present) is an object and whose named-file entry
is absent, falsy, or a dict, list or string. -/
theorem C3_amended_no_escape (parse : String → Option Json) (r : LoadResp)
    (h : wellShapedResp r = true) : loadOk (load_state parse r) = true := by
  cases r with
  | noConfig => rfl
  | transportError => rfl
  | ok body =>
    cases body with
    | error e => simp [wellShapedResp] at h
    | ok data =>
      cases data with
      | null => simp [wellShapedResp] at h
      | bool b => simp [wellShapedResp] at h
      | num n => simp [wellShapedResp] at h
      | str s => simp [wellShapedResp] at h
      | arr xs => simp [wellShapedResp] at h
      | obj dataFields =>
        simp only [wellShapedResp] at h
        simp only [load_state]
        cases hf : (dataFields.lookup "files").getD (Json.obj []) with
        | obj fileEntries =>
          simp only [hf] at h
          cases hfo : fileEntries.lookup STATE_FILENAME with
          | none => simp [hfo, loadOk]
          | some fileObj =>
            simp only [hfo] at h
            simp only [hfo]
            by_cases ht : jsonTruthy fileObj
            · simp only [ht, Bool.not_true, Bool.false_or] at h
              simp only [ht, Bool.not_true]
              cases fileObj with
              | obj fs =>
                simp only [pyContainsKey]
                cases fs.any (fun kv => kv.1 == "content") <;> simp [loadOk]
              | arr xs =>
                simp only [pyContainsKey]
                cases xs.any (fun x => match x with | Json.str s => s == "content" | _ => false) <;>
                  simp [loadOk]
              | str s =>
                simp only [pyContainsKey]
                cases strContains s "content" <;> simp [loadOk]
              | null => simp at h
              | bool b => simp at h
              | num n => simp at h
            · have ht2 : jsonTruthy fileObj = false := by
                cases hjt : jsonTruthy fileObj
                · rfl
                · exact absurd hjt ht
              simp [ht2, loadOk]
        | null => simp only [hf] at h; simp at h
        | bool b => simp only [hf] at h; simp at h
        | num n => simp only [hf] at h; simp at h
        | str s => simp only [hf] at h; simp at h
        | arr xs => simp only [hf] at h; simp at h

/-- Witness for the amended C3 at a concrete well-shaped response (an empty
JSON object body): the load succeeds. -/
theorem C3_witness : loadOk (load_state parse0 r3) = true :=
  C3_amended_no_escape parse0 r3 (by rfl)

theorem filterMap_downloads (dl : String → Option String) (l : List String) :
    List.filterMap
        (fun a => match a with | BskyAct.download u ok => some (u, ok) | _ => none)
        (l.map (fun u => BskyAct.download u ((dl u).isSome))) =
      l.map (fun u => (u, (dl u).isSome)) := by
  induction l with
  | nil => rfl
  | cons a as ih => simp [List.filterMap_cons, ih]

/-- Claim C9: with media urls present, only the first four are attempted;
an individual download failure only drops that image; when every download
fails exactly one text-only send_post happens and send_images is never
called; when at least one succeeds there is exactly one send_images call
carrying the successful payloads with one alt text per image naming the
source account; in every case exactly one publish call is made. -/
theorem C9_publisher_media (dl : String → Option String) (tweet : Tweet) (text : String)
    (h : tweet.media_urls ≠ []) :
    (post_to_bluesky dl tweet text).filterMap
        (fun a => match a with | BskyAct.download u ok => some (u, ok) | _ => none) =
      (tweet.media_urls.take 4).map (fun u => (u, (dl u).isSome)) ∧
    ((∀ u ∈ tweet.media_urls.take 4, dl u = none) →
      post_to_bluesky dl tweet text =
        (tweet.media_urls.take 4).map (fun u => BskyAct.download u false) ++
          [BskyAct.sendPost text]) ∧
    ((tweet.media_urls.take 4).filterMap dl ≠ [] →
      post_to_bluesky dl tweet text =
        (tweet.media_urls.take 4).map (fun u => BskyAct.download u ((dl u).isSome)) ++
          [BskyAct.sendImages text ((tweet.media_urls.take 4).filterMap dl)
            (((tweet.media_urls.take 4).filterMap dl).map
              (fun _ => "Image from tweet by @" ++ tweet.username))]) ∧
    ((post_to_bluesky dl tweet text).filter
        (fun a => match a with
          | BskyAct.sendPost _ => true
          | BskyAct.sendImages _ _ _ => true
          | _ => false)).length = 1 := by
  have hne : tweet.media_urls.isEmpty = false := by
    cases hl : tweet.media_urls with
    | nil => exact absurd hl h
    | cons a as => rfl
  by_cases himg : (tweet.media_urls.take 4).filterMap dl = []
  · have hall : ∀ u ∈ tweet.media_urls.take 4, dl u = none := List.filterMap_eq_nil.mp himg
    have hres : post_to_bluesky dl tweet text =
        (tweet.media_urls.take 4).map (fun u => BskyAct.download u ((dl u).isSome)) ++
          [BskyAct.sendPost text] := by
      simp only [post_to_bluesky, hne, Bool.false_eq_true, if_false, himg,
        List.isEmpty_nil, if_true]
    refine ⟨?_, ?_, ?_, ?_⟩
    · rw [hres, List.filterMap_append, filterMap_downloads dl (tweet.media_urls.take 4)]
      simp
    · intro _
      rw [hres]
      apply congrArg (fun l => l ++ [BskyAct.sendPost text])
      apply List.map_congr_left
      intro u hu
      rw [hall u hu]
      rfl
    · intro hcontra
      exact absurd himg hcontra
    · rw [hres]
      simp only [List.filter_append, List.length_append]
      have h1 : ((tweet.media_urls.take 4).map
          (fun u => BskyAct.download u ((dl u).isSome))).filter
            (fun a => match a with
              | BskyAct.sendPost _ => true
              | BskyAct.sendImages _ _ _ => true
              | _ => false) = [] := by
        rw [List.filter_eq_nil]
        intro a ha
        obtain ⟨u, _, hu⟩ := List.mem_map.mp ha
        rw [← hu]
        simp
      rw [h1]
      rfl
  · have hres : post_to_bluesky dl tweet text =
        (tweet.media_urls.take 4).map (fun u => BskyAct.download u ((dl u).isSome)) ++
          [BskyAct.sendImages text ((tweet.media_urls.take 4).filterMap dl)
            (((tweet.media_urls.take 4).filterMap dl).map
              (fun _ => "Image from tweet by @" ++ tweet.username))] := by
      simp only [post_to_bluesky, hne, Bool.false_eq_true, if_false]
      rw [if_neg]
      intro hcontra
      exact himg (List.isEmpty_iff.mp hcontra)
    refine ⟨?_, ?_, ?_, ?_⟩
    · rw [hres, List.filterMap_append, filterMap_downloads dl (tweet.media_urls.take 4)]
      simp
    · intro hall
      exact absurd (List.filterMap_eq_nil.mpr hall) himg
    · intro _
      exact hres
    · rw [hres]
      simp only [List.filter_append, List.length_append]
      have h1 : ((tweet.media_urls.take 4).map
          (fun u => BskyAct.download u ((dl u).isSome))).filter
            (fun a => match a with
              | BskyAct.sendPost _ => true
              | BskyAct.sendImages _ _ _ => true
              | _ => false) = [] := by
        rw [List.filter_eq_nil]
        intro a ha
        obtain ⟨u, _, hu⟩ := List.mem_map.mp ha
        rw [← hu]
        simp
      rw [h1]
      rfl

/-- Witness for C9 at a concrete tweet with one succeeding and one failing
download: one send_images call with the single payload and alt text. -/
theorem C9_witness :
    post_to_bluesky c9dl c9tweet "hello" =
      [BskyAct.download "http://img/1" true, BskyAct.download "http://img/2" false,
       BskyAct.sendImages "hello" ["payload1"] ["Image from tweet by @manu"]] :=
  ((C9_publisher_media c9dl c9tweet "hello" (by decide)).2.2.1 (by decide)).trans (by decide)

theorem retweet_entry_dropped (u : String) (e : Entry)
    (h : looks_like_retweet (e.titleAttr.getD "") = true) : entryToItem u e = none := by
  simp [entryToItem, h]

theorem fetchLoop_filter_retweets (u : String) (limit : Nat) (es : List Entry) :
    ∀ acc, fetchLoop u limit es acc =
      fetchLoop u limit
        (es.filter (fun e => !looks_like_retweet (e.titleAttr.getD ""))) acc := by
  induction es with
  | nil => intro acc; rfl
  | cons e es ih =>
    intro acc
    by_cases hr : looks_like_retweet (e.titleAttr.getD "") = true
    · have hnone : entryToItem u e = none := retweet_entry_dropped u e hr
      simp only [List.filter_cons, hr, Bool.not_true, Bool.false_eq_true, if_false]
      simp only [fetchLoop, hnone]
      exact ih acc
    · have hkeep : (!looks_like_retweet (e.titleAttr.getD "")) = true := by
        simp [Bool.not_eq_true] at hr ⊢
        exact hr
      simp only [List.filter_cons, hkeep, if_true]
      simp only [fetchLoop]
      cases hei : entryToItem u e with
      | none => exact ih acc
      | some t =>
        by_cases hlim : limit ≤ acc.length + 1
        · simp [hlim]
        · simp only [List.length_append, List.length_singleton, if_neg hlim]
          exact ih (acc ++ [t])

/-- Claim C7 counterexample: a title with a leading space is classified as
a repost by the code although it does not start (case-insensitively) with
either pattern, refuting the claimed characterization; and an entry that is
not repost-titled is nevertheless excluded from the fetcher output (its
text is empty), refuting the claimed exactness of the exclusion. -/
theorem C7_counterexample :
    looks_like_retweet " rt hi" = true ∧ specRepostTitle " rt hi" = false ∧
    looks_like_retweet (c7entry.titleAttr.getD "") = false ∧
    get_recent_tweets_rss "u" 1 (FetchResp.success [c7entry]) = [] := by
  decide

/-- Claim C7 (amended): looks_like_retweet returns true exactly when the
whitespace-stripped title, compared case-insensitively, starts with the
repost patterns; every entry satisfying this predicate is excluded from the
fetcher output (dropping all of them changes nothing), though the fetcher
may also exclude other entries (empty text, or past the limit). -/
theorem C7_amended_repost_test (u : String) (limit : Nat) (title : String) :
    looks_like_retweet title = specRepostTitle (pyStrip title) ∧
    ∀ entries, get_recent_tweets_rss u limit (FetchResp.success entries) =
      get_recent_tweets_rss u limit
        (FetchResp.success (entries.filter (fun e => !looks_like_retweet (e.titleAttr.getD "")))) := by
  constructor
  · rfl
  · intro entries
    simp only [get_recent_tweets_rss]
    exact fetchLoop_filter_retweets u limit entries []

theorem fetchLoop_take (u : String) (limit : Nat) (es : List Entry) :
    ∀ acc : List Tweet, acc.length < limit →
      fetchLoop u limit es acc =
        acc ++ (es.filterMap (entryToItem u)).take (limit - acc.length) := by
  induction es with
  | nil => intro acc _; simp [fetchLoop]
  | cons e es ih =>
    intro acc hacc
    simp only [fetchLoop]
    cases hei : entryToItem u e with
    | none =>
      simp only [List.filterMap_cons, hei]
      exact ih acc hacc
    | some t =>
      simp only [List.filterMap_cons, hei]
      by_cases hlim : limit ≤ acc.length + 1
      · have h1 : limit - acc.length = 1 := by omega
        simp [hlim, h1]
      · simp only [List.length_append, List.length_singleton, if_neg hlim]
        rw [ih (acc ++ [t]) (by simp; omega)]
        have h2 : limit - acc.length = (limit - (acc.length + 1)) + 1 := by omega
        rw [h2]
        simp [List.take_succ_cons, List.append_assoc]

/-- Claim C8: the fetcher returns the empty sequence on transport failure,
and otherwise exactly the first limit entries (in feed document order) that
survive the repost and empty-text filtering, stopping at the limit. -/
theorem C8_fetcher_contract (u : String) (limit : Nat) (h : 1 ≤ limit) :
    get_recent_tweets_rss u limit FetchResp.failure = [] ∧
    ∀ entries, get_recent_tweets_rss u limit (FetchResp.success entries) =
      (entries.filterMap (entryToItem u)).take limit := by
  refine ⟨rfl, ?_⟩
  intro entries
  simp only [get_recent_tweets_rss]
  rw [fetchLoop_take u limit entries [] (by simpa using h)]
  simp

/-- Witness for C8 at limit one with a two-entry feed: the scan stops after
the first accepted entry. -/
theorem C8_witness :
    get_recent_tweets_rss "u" 1 (FetchResp.success [c8entry, c8entry]) =
      [{ id := "id8", content := "Hello world", url := "http://t/8", username := "u",
         media_urls := [], quote_author := none, quote_text := none }] :=
  ((C8_fetcher_contract "u" 1 (by decide)).2 [c8entry, c8entry]).trans (by decide)

/-- Claim C5 counterexample: a quote container holding a bold author but no
paragraph yields a parse result with quote_author present and quote_text
absent, refuting the claimed pairing of the two fields. -/
theorem C5_counterexample :
    (parse_entry_text_and_quote "t" (some c5soup)).quote_author = some "bob" ∧
    (parse_entry_text_and_quote "t" (some c5soup)).quote_text = none := by
  decide

/-- Claim C5 (amended): when the quote container yields empty quoted text,
quote_text stays absent; quote_author, computed independently from the
first bold element of the container, is not cleared and may remain
present. -/
theorem C5_amended_empty_quote_text (title : String) (soup : Forest) (qcs : Forest)
    (h1 : findTagF "blockquote" soup = some qcs)
    (h2 : pyStrip (String.intercalate " "
        ((findAllTagF "p" qcs).map (fun pc => getTextF " " pc))) = "") :
    (parse_entry_text_and_quote title (some soup)).quote_text = none := by
  cases qcs with
  | nil => simp [parse_entry_text_and_quote, h1]
  | cons n rest => simp [parse_entry_text_and_quote, h1, h2]

/-- Witness for the amended C5 at a concrete body whose quote container has
a bold author and no paragraph. -/
theorem C5_witness :
    (parse_entry_text_and_quote "tw" (some c5wsoup)).quote_text = none :=
  C5_amended_empty_quote_text "tw" c5wsoup
    (fOf [Node.elem "b" (fOf [Node.text "A (@a)"])]) (by rfl) (by decide)

theorem filterMap_flag_true (l : List Forest) :
    (l.map (fun cs => (cs, true))).filterMap
      (fun cu => if cu.2 then some cu.1 else none) = l := by
  induction l with
  | nil => rfl
  | cons a as ih => simp [List.filterMap_cons, ih]

theorem filterMap_flag_false (l : List Forest) :
    (l.map (fun cs => (cs, false))).filterMap
      (fun cu => if cu.2 then some cu.1 else none) = [] := by
  induction l with
  | nil => rfl
  | cons a as ih => simp [List.filterMap_cons, ih]

mutual
theorem pFlaggedN_true (n : Node) :
    pFlaggedN true n = (findAllTagN "p" n).map (fun cs => (cs, true)) := by
  cases n with
  | text s => rfl
  | elem t cs =>
    simp only [pFlaggedN, findAllTagN, Bool.true_or, List.map_append, pFlaggedF_true cs]
    congr 1
    split <;> rfl
theorem pFlaggedF_true (f : Forest) :
    pFlaggedF true f = (findAllTagF "p" f).map (fun cs => (cs, true)) := by
  cases f with
  | nil => rfl
  | cons n rest =>
    simp only [pFlaggedF, findAllTagF, List.map_append, pFlaggedN_true n, pFlaggedF_true rest]
end

mutual
theorem pFlaggedN_false_nobq (n : Node) (h : countTagN "blockquote" n = 0) :
    pFlaggedN false n = (findAllTagN "p" n).map (fun cs => (cs, false)) := by
  cases n with
  | text s => rfl
  | elem t cs =>
    have hne : (t == "blockquote") = false := by
      cases hbq : t == "blockquote"
      · rfl
      · exfalso
        simp only [countTagN, hbq, if_true] at h
        omega
    have hcs : countTagF "blockquote" cs = 0 := by
      simp only [countTagN, hne, if_false] at h
      omega
    simp only [pFlaggedN, findAllTagN, hne, Bool.or_false, List.map_append,
      pFlaggedF_false_nobq cs hcs]
    congr 1
    split <;> rfl
theorem pFlaggedF_false_nobq (f : Forest) (h : countTagF "blockquote" f = 0) :
    pFlaggedF false f = (findAllTagF "p" f).map (fun cs => (cs, false)) := by
  cases f with
  | nil => rfl
  | cons n rest =>
    have hn : countTagN "blockquote" n = 0 := by
      simp only [countTagF] at h
      omega
    have hr : countTagF "blockquote" rest = 0 := by
      simp only [countTagF] at h
      omega
    simp only [pFlaggedF, findAllTagF, List.map_append,
      pFlaggedN_false_nobq n hn, pFlaggedF_false_nobq rest hr]
end

mutual
theorem findTagN_le_count (tag : String) (n : Node) (q : Forest)
    (h : findTagN tag n = some q) : 1 ≤ countTagN tag n := by
  cases n with
  | text s => exact absurd h (by simp [findTagN])
  | elem t cs =>
    cases htag : t == tag
    · simp only [findTagN, htag, Bool.false_eq_true, if_false] at h
      simp only [countTagN, htag, Bool.false_eq_true, if_false]
      have := findTagF_le_count tag cs q h
      omega
    · simp only [countTagN, htag, if_true]
      omega
theorem findTagF_le_count (tag : String) (f : Forest) (q : Forest)
    (h : findTagF tag f = some q) : 1 ≤ countTagF tag f := by
  cases f with
  | nil => exact absurd h (by simp [findTagF])
  | cons n rest =>
    simp only [findTagF] at h
    cases hn : findTagN tag n with
    | some r =>
      have := findTagN_le_count tag n r hn
      simp only [countTagF]
      omega
    | none =>
      rw [hn] at h
      have := findTagF_le_count tag rest q h
      simp only [countTagF]
      omega
end

mutual
theorem findTagN_none_count (tag : String) (n : Node)
    (h : findTagN tag n = none) : countTagN tag n = 0 := by
  cases n with
  | text s => rfl
  | elem t cs =>
    cases htag : t == tag
    · simp only [findTagN, htag, Bool.false_eq_true, if_false] at h
      simp only [countTagN, htag, Bool.false_eq_true, if_false,
        findTagF_none_count tag cs h]
    · simp only [findTagN, htag, if_true] at h
      exact absurd h (by simp)
theorem findTagF_none_count (tag : String) (f : Forest)
    (h : findTagF tag f = none) : countTagF tag f = 0 := by
  cases f with
  | nil => rfl
  | cons n rest =>
    simp only [findTagF] at h
    cases hn : findTagN tag n with
    | some r => rw [hn] at h; exact absurd h (by simp)
    | none =>
      rw [hn] at h
      simp only [countTagF, findTagN_none_count tag n hn, findTagF_none_count tag rest h]
end

mutual
theorem insideParasN_eq (n : Node) (qcs : Forest)
    (h1 : findTagN "blockquote" n = some qcs)
    (h2 : countTagN "blockquote" n = 1) :
    (pFlaggedN false n).filterMap (fun cu => if cu.2 then some cu.1 else none) =
      findAllTagF "p" qcs := by
  cases n with
  | text s => exact absurd h1 (by simp [findTagN])
  | elem t cs =>
    cases htag : t == "blockquote"
    · simp only [findTagN, htag, Bool.false_eq_true, if_false] at h1
      have hcs : countTagF "blockquote" cs = 1 := by
        simp only [countTagN, htag, Bool.false_eq_true, if_false] at h2
        omega
      simp only [pFlaggedN, htag, Bool.or_false, List.filterMap_append]
      rw [insideParasF_eq cs qcs h1 hcs]
      have hfirst : (if t == "p" then [(cs, false)] else []).filterMap
          (fun cu => if cu.2 then some cu.1 else none) = [] := by
        split <;> rfl
      rw [hfirst, List.nil_append]
    · simp only [findTagN, htag, if_true, Option.some.injEq] at h1
      have hcs : countTagF "blockquote" cs = 0 := by
        simp only [countTagN, htag, if_true] at h2
        omega
      have hp : (t == "p") = false := by
        have ht : t = "blockquote" := by simpa using htag
        simp [ht]
      simp only [pFlaggedN, htag, Bool.or_true, hp, Bool.false_eq_true, if_false,
        List.nil_append]
      rw [pFlaggedF_true cs, filterMap_flag_true, h1]
theorem insideParasF_eq (f : Forest) (qcs : Forest)
    (h1 : findTagF "blockquote" f = some qcs)
    (h2 : countTagF "blockquote" f = 1) :
    (pFlaggedF false f).filterMap (fun cu => if cu.2 then some cu.1 else none) =
      findAllTagF "p" qcs := by
  cases f with
  | nil => exact absurd h1 (by simp [findTagF])
  | cons n rest =>
    simp only [findTagF] at h1
    simp only [countTagF] at h2
    simp only [pFlaggedF, List.filterMap_append]
    cases hn : findTagN "blockquote" n with
    | some r =>
      rw [hn, Option.some.injEq] at h1
      have hc1 : 1 ≤ countTagN "blockquote" n := findTagN_le_count "blockquote" n r hn
      have hrest : countTagF "blockquote" rest = 0 := by omega
      have hcn : countTagN "blockquote" n = 1 := by omega
      rw [pFlaggedF_false_nobq rest hrest, filterMap_flag_false, List.append_nil]
      rw [← h1]
      exact insideParasN_eq n r hn hcn
    | none =>
      rw [hn] at h1
      have hcn : countTagN "blockquote" n = 0 := findTagN_none_count "blockquote" n hn
      have hrest : countTagF "blockquote" rest = 1 := by omega
      rw [pFlaggedN_false_nobq n hcn, filterMap_flag_false, List.nil_append]
      exact insideParasF_eq rest qcs h1 hrest
end

/-- Claim C6: for a body with exactly one quote container and non-empty
outside text, main_text is the stripped newline-join of the normalized
texts of exactly the paragraphs that are not descendants of the container,
and quote_text is built only from the paragraphs inside the container. -/
theorem C6_main_quote_separation (title : String) (soup : Forest) (qcs : Forest)
    (h1 : findTagF "blockquote" soup = some qcs)
    (h2 : countTagF "blockquote" soup = 1)
    (hm : pyStrip (String.intercalate "\n" (mainParas soup)) ≠ "") :
    (parse_entry_text_and_quote title (some soup)).main_text =
      pyStrip (String.intercalate "\n" (mainParas soup)) ∧
    insideParas soup = findAllTagF "p" qcs ∧
    (parse_entry_text_and_quote title (some soup)).quote_text =
      (if pyStrip (String.intercalate " "
          ((findAllTagF "p" qcs).map (fun pc => getTextF " " pc))) = "" then none
       else some (pyStrip (String.intercalate " "
          ((findAllTagF "p" qcs).map (fun pc => getTextF " " pc))))) := by
  refine ⟨?_, insideParasF_eq soup qcs h1 h2, ?_⟩
  · cases qcs with
    | nil => simp [parse_entry_text_and_quote, h1, hm]
    | cons n rest => simp [parse_entry_text_and_quote, h1, hm]
  · cases qcs with
    | nil =>
      have hempty : pyStrip (String.intercalate " "
          ((findAllTagF "p" Forest.nil).map (fun pc => getTextF " " pc))) = "" := by rfl
      rw [hempty]
      simp [parse_entry_text_and_quote, h1]
    | cons n rest =>
      simp only [parse_entry_text_and_quote, h1]

/-- Witness for C6 at a concrete body with one paragraph inside and two
outside the quote container. -/
theorem C6_witness : insideParas c6soup = findAllTagF "p" c6qcs :=
  (C6_main_quote_separation "t" c6soup c6qcs (by rfl) (by rfl) (by decide)).2.1
